import Mathlib

/-!
Shallow embedding of the celestial-sphere repository (celesph.py, sunpath.py).

Vectors are triples of reals.  Batched curves (numpy arrays of x, y, z
components) are modelled as lists of points; the elementwise rotation of a
component batch is the pointwise rotation of the corresponding point list.
`numpy.linspace a b num` is modelled by its closed form
`a + (b - a) * k / (num - 1)` for `k < num` (for `num = 1` numpy returns
`[a]`, and the Lean convention `0 / 0 = 0` gives the same value).
Python's implicit `None` fall-through is modelled by `Option`; a failing
`assert` is modelled by returning `none`.
-/

open Real

noncomputable section

abbrev Vec3 : Type := ℝ × ℝ × ℝ

/-- Source `rotate_x p [x, y, z] = [x, y*c-z*s, y*s+z*c]` with `c, s = cos p, sin p`. -/
def rotate_x (p : ℝ) (v : Vec3) : Vec3 :=
  (v.1, v.2.1 * Real.cos p - v.2.2 * Real.sin p, v.2.1 * Real.sin p + v.2.2 * Real.cos p)

/-- Source `rotate_y p [x, y, z] = [z*s+x*c, y, z*c-x*s]` with `c, s = cos p, sin p`. -/
def rotate_y (p : ℝ) (v : Vec3) : Vec3 :=
  (v.2.2 * Real.sin p + v.1 * Real.cos p, v.2.1, v.2.2 * Real.cos p - v.1 * Real.sin p)

/-- Source `rotate_z p [x, y, z] = [x*c-y*s, x*s+y*c, z]` with `c, s = cos p, sin p`. -/
def rotate_z (p : ℝ) (v : Vec3) : Vec3 :=
  (v.1 * Real.cos p - v.2.1 * Real.sin p, v.1 * Real.sin p + v.2.1 * Real.cos p, v.2.2)

/-- Euclidean norm of a vector. -/
def vecNorm (v : Vec3) : ℝ := Real.sqrt (v.1 ^ 2 + v.2.1 ^ 2 + v.2.2 ^ 2)

/-- Model of `numpy.linspace a b num`: `num` evenly spaced samples from `a` to `b`. -/
def linspace (a b : ℝ) (num : ℕ) : List ℝ :=
  (List.range num).map (fun k : ℕ => a + (b - a) * (k : ℝ) / ((num - 1 : ℕ) : ℝ))

/-- Source `make_meridian p n`: the curve `q ↦ (sin q * cos p, sin q * sin p, cos q)`
sampled at `q = linspace(-π, π, n+1)`.  The source default is `n = 100`. -/
def make_meridian (p : ℝ) (n : ℕ) : List Vec3 :=
  (linspace (-π) π (n + 1)).map (fun q =>
    (Real.sin q * Real.cos p, Real.sin q * Real.sin p, Real.cos q))

/-- Source `make_parallel q n`: the curve `p ↦ (sin q * cos p, sin q * sin p, cos q)`
sampled at `p = linspace(-π, π, n+1)`.  The source default is `n = 100`
(the source's `cos q * ones_like p` broadcast is the constant `cos q`). -/
def make_parallel (q : ℝ) (n : ℕ) : List Vec3 :=
  (linspace (-π) π (n + 1)).map (fun p =>
    (Real.sin q * Real.cos p, Real.sin q * Real.sin p, Real.cos q))

/-- Source `make_globe i j n`: asserts `i ≥ 0 ∧ j ≥ 0` (modelled as `none` on failure),
then appends the parallels at `linspace(0, π, i*2+1)[1:-1]` and the meridians at
`linspace(0, π, j*2+1)[:-1]`.  The resolution `n` is accepted (source default
100) but the source never forwards it: `make_parallel` and `make_meridian` are
called at their own default 100. -/
def make_globe (i j : ℤ) (n : ℕ) : Option (List (List Vec3)) :=
  if 0 ≤ i ∧ 0 ≤ j then
    some ((((linspace 0 π (i * 2 + 1).toNat).drop 1).dropLast).map
            (fun q => make_parallel q 100)
          ++ ((linspace 0 π (j * 2 + 1).toNat).dropLast).map
            (fun p => make_meridian p 100))
  else none

/-- The mutable parameter store of `celesph.demo` (the FrameParameters record):
view-type and day-type are the Python strings used by the source. -/
structure Store where
  obliquity : ℝ
  latitude : ℝ
  time_of_year : ℝ
  time_of_day : ℝ
  view_type : String
  day_type : String

/-- Source `transform_observer_to_inertial`: rotate by the colatitude about y, by
time-of-day about z, and, when the day is solar, by time-of-year about z. -/
def transform_observer_to_inertial (s : Store) (x : Vec3) : Vec3 :=
  let colatitude := π / 2 - s.latitude
  let x := rotate_y colatitude x
  let x := rotate_z s.time_of_day x
  if s.day_type = "solar" then rotate_z s.time_of_year x else x

/-- Source `transform_inertial_to_ecliptic`: rotate by the obliquity about y. -/
def transform_inertial_to_ecliptic (s : Store) (x : Vec3) : Vec3 :=
  rotate_y s.obliquity x

/-- Source `transform_ecliptic_to_view`: identity for the ecliptic view; undo the
obliquity for the equator view; additionally undo time-of-day (and, for a
solar day, time-of-year) and the colatitude for the horizon view.  For any
other view-type the Python function falls off its end and implicitly
returns `None`, modelled as `none`. -/
def transform_ecliptic_to_view (s : Store) (x : Vec3) : Option Vec3 :=
  if s.view_type = "ecliptic" then some x else
  let colatitude := π / 2 - s.latitude
  let x := rotate_y (-s.obliquity) x
  if s.view_type = "equator" then some x else
  let x := rotate_z (-s.time_of_day) x
  let x := if s.day_type = "solar" then rotate_z (-s.time_of_year) x else x
  let x := rotate_y (-colatitude) x
  if s.view_type = "horizon" then some x else none

/-- Source `get_sun_declination o t = asin(cos t * sin o)`. -/
def get_sun_declination (o t : ℝ) : ℝ :=
  Real.arcsin (Real.cos t * Real.sin o)

/-- The first (shadowed) `make_sun_path` of sunpath.py: the parallel at
colatitude `π/2 - d` rotated by `π/2 - l` about y. -/
def make_sun_path_rotated (o t l : ℝ) : List Vec3 :=
  let d := get_sun_declination o t
  (make_parallel (π / 2 - d) 100).map (fun x => rotate_y (π / 2 - l) x)

/-- The second (effective) `make_sun_path` of sunpath.py: the closed-form
diurnal circle sampled at `p = linspace(-π, π, 101)`. -/
def make_sun_path (o t l : ℝ) : List Vec3 :=
  let d := get_sun_declination o t
  (linspace (-π) π 101).map (fun p =>
    (Real.sin l * Real.cos d * Real.cos p + Real.cos l * Real.sin d,
     Real.cos d * Real.sin p,
     -Real.cos l * Real.cos d * Real.cos p + Real.sin l * Real.sin d))

/-- Model of `numpy.clip x (-1) 1`. -/
def clip1 (x : ℝ) : ℝ := min (max x (-1)) 1

/-- Model of `numpy.arctan2 y x`: the signed angle of the point `(x, y)`. -/
def arctan2 (y x : ℝ) : ℝ :=
  if 0 < x then Real.arctan (y / x)
  else if x < 0 then
    (if 0 ≤ y then Real.arctan (y / x) + π else Real.arctan (y / x) - π)
  else if 0 < y then π / 2
  else if y < 0 then -(π / 2)
  else 0

/-- The sunlit-fraction computation of `plot_insolation_variation`:
`1 - acos(clip(tan l * tan d, -1, 1)) / π`. -/
def sunlit_fraction (l d : ℝ) : ℝ :=
  1 - Real.arccos (clip1 (Real.tan l * Real.tan d)) / π

/-- The sunrise-azimuth computation of `plot_sunrise_position_variation`:
`atan2(sqrt(1 - f²), sin l * f + cos l * tan d)` with
`f = clip(tan l * tan d, -1, 1)`. -/
def sunrise_azimuth (l d : ℝ) : ℝ :=
  let f := clip1 (Real.tan l * Real.tan d)
  arctan2 (Real.sqrt (1 - f ^ 2)) (Real.sin l * f + Real.cos l * Real.tan d)

/-! Helper lemmas about rotations and sampled lists. -/

lemma rotate_y_rotate_y (a b : ℝ) (v : Vec3) :
    rotate_y a (rotate_y b v) = rotate_y (a + b) v := by
  simp only [rotate_y, Real.cos_add, Real.sin_add, Prod.mk.injEq]
  exact ⟨by ring, trivial, by ring⟩

lemma rotate_z_rotate_z (a b : ℝ) (v : Vec3) :
    rotate_z a (rotate_z b v) = rotate_z (a + b) v := by
  simp only [rotate_z, Real.cos_add, Real.sin_add, Prod.mk.injEq]
  exact ⟨by ring, by ring, trivial⟩

lemma rotate_y_zero (v : Vec3) : rotate_y 0 v = v := by
  simp [rotate_y]

lemma rotate_z_zero (v : Vec3) : rotate_z 0 v = v := by
  simp [rotate_z]

lemma rotate_y_cancel (a : ℝ) (v : Vec3) : rotate_y (-a) (rotate_y a v) = v := by
  rw [rotate_y_rotate_y]
  simp [rotate_y_zero]

lemma rotate_z_cancel (a : ℝ) (v : Vec3) : rotate_z (-a) (rotate_z a v) = v := by
  rw [rotate_z_rotate_z]
  simp [rotate_z_zero]

lemma rotate_z_cancel2 (a b : ℝ) (v : Vec3) :
    rotate_z (-a) (rotate_z (-b) (rotate_z a (rotate_z b v))) = v := by
  rw [rotate_z_rotate_z, rotate_z_rotate_z, rotate_z_rotate_z]
  ring_nf
  exact rotate_z_zero v

/-! Theorems settling the claims. -/

/-- C8: every axis rotation preserves the Euclidean norm of the vector
(rotations are isometries): `|rotate(axis, θ, v)| = |v|` for each of the
three axes. -/
theorem rotate_isometry (p : ℝ) (v : Vec3) :
    vecNorm (rotate_x p v) = vecNorm v ∧ vecNorm (rotate_y p v) = vecNorm v ∧
      vecNorm (rotate_z p v) = vecNorm v := by
  have h := Real.sin_sq_add_cos_sq p
  refine ⟨?_, ?_, ?_⟩
  · simp only [vecNorm, rotate_x]
    congr 1
    linear_combination (v.2.1 ^ 2 + v.2.2 ^ 2) * h
  · simp only [vecNorm, rotate_y]
    congr 1
    linear_combination (v.1 ^ 2 + v.2.2 ^ 2) * h
  · simp only [vecNorm, rotate_z]
    congr 1
    linear_combination (v.1 ^ 2 + v.2.1 ^ 2) * h

/-- C2: for every FrameParameters (any obliquity, latitude, times and
day-type string), composing observer→inertial, inertial→ecliptic and
ecliptic→view in the horizon view returns the original vector, and
composing inertial→ecliptic and ecliptic→view in the equator view
returns the original vector. -/
theorem transform_roundtrip (ob la ty td : ℝ) (dt : String) (v : Vec3) :
    transform_ecliptic_to_view ⟨ob, la, ty, td, "horizon", dt⟩
        (transform_inertial_to_ecliptic ⟨ob, la, ty, td, "horizon", dt⟩
          (transform_observer_to_inertial ⟨ob, la, ty, td, "horizon", dt⟩ v)) = some v ∧
    transform_ecliptic_to_view ⟨ob, la, ty, td, "equator", dt⟩
        (transform_inertial_to_ecliptic ⟨ob, la, ty, td, "equator", dt⟩ v) = some v := by
  have hne1 : ("horizon" : String) ≠ "ecliptic" := by decide
  have hne2 : ("horizon" : String) ≠ "equator" := by decide
  have hne3 : ("equator" : String) ≠ "ecliptic" := by decide
  constructor
  · simp only [transform_observer_to_inertial, transform_inertial_to_ecliptic,
      transform_ecliptic_to_view]
    rw [if_neg hne1, if_neg hne2, if_true]
    by_cases hd : dt = "solar"
    · rw [if_pos hd, if_pos hd, rotate_y_cancel, rotate_z_cancel2, rotate_y_cancel]
    · rw [if_neg hd, if_neg hd, rotate_y_cancel, rotate_z_cancel, rotate_y_cancel]
  · simp only [transform_inertial_to_ecliptic, transform_ecliptic_to_view]
    rw [if_neg hne3, if_true, rotate_y_cancel]

/-- C1 (amended): for every vector and every store whose view-type is none of
"ecliptic", "equator" or "horizon", `transform_ecliptic_to_view` falls off the
end of the function and yields no vector at all (`none`, Python's implicit
`None`); in particular it never returns an unrotated vector, but it does not
signal an InvalidViewMode error either. -/
theorem transform_ecliptic_to_view_unknown (s : Store) (v : Vec3)
    (h1 : s.view_type ≠ "ecliptic") (h2 : s.view_type ≠ "equator")
    (h3 : s.view_type ≠ "horizon") :
    transform_ecliptic_to_view s v = none := by
  simp only [transform_ecliptic_to_view]
  rw [if_neg h1, if_neg h2, if_neg h3]

/-- C1 witness: the amended theorem applied to a concrete unknown view-type. -/
theorem transform_ecliptic_to_view_unknown_witness :
    (("invalid" : String) ≠ "ecliptic" ∧ ("invalid" : String) ≠ "equator" ∧
      ("invalid" : String) ≠ "horizon") ∧
    transform_ecliptic_to_view ⟨0, 0, 0, 0, "invalid", "sidereal"⟩ ((1 : ℝ), (0 : ℝ), (0 : ℝ)) = none :=
  ⟨⟨by decide, by decide, by decide⟩,
    transform_ecliptic_to_view_unknown _ _ (by decide) (by decide) (by decide)⟩

/-- C1 counterexample: with view-type "invalid" and input (1, 0, 0), the
transform silently falls through and returns no vector (`none`, modelling
Python's implicit `None` return); it does not signal any error value. -/
theorem transform_ecliptic_to_view_no_error :
    transform_ecliptic_to_view ⟨0, 0, 0, 0, "invalid", "sidereal"⟩ ((1 : ℝ), (0 : ℝ), (0 : ℝ)) = none := by
  simp only [transform_ecliptic_to_view]
  rw [if_neg (by decide : ("invalid" : String) ≠ "ecliptic"),
    if_neg (by decide : ("invalid" : String) ≠ "equator"),
    if_neg (by decide : ("invalid" : String) ≠ "horizon")]

/-- C3: with d the sun declination, every sampled point of the sun path is
`(sin l cos d cos p + cos l sin d, cos d sin p, -cos l cos d cos p + sin l sin d)`
at its parameter value p, and the closed-form `make_sun_path` produces exactly
the same point sequence as the rotated parallel
`rotate_y (π/2 - l) (make_parallel (π/2 - d))`. -/
theorem make_sun_path_spec (o t l : ℝ) :
    make_sun_path o t l
      = (linspace (-π) π 101).map (fun p =>
          (Real.sin l * Real.cos (get_sun_declination o t) * Real.cos p
             + Real.cos l * Real.sin (get_sun_declination o t),
           Real.cos (get_sun_declination o t) * Real.sin p,
           -Real.cos l * Real.cos (get_sun_declination o t) * Real.cos p
             + Real.sin l * Real.sin (get_sun_declination o t)))
      ∧ make_sun_path o t l = make_sun_path_rotated o t l := by
  refine ⟨rfl, ?_⟩
  simp only [make_sun_path, make_sun_path_rotated, make_parallel, List.map_map]
  congr 1
  funext p
  simp only [Function.comp_apply, rotate_y, Real.sin_pi_div_two_sub,
    Real.cos_pi_div_two_sub, Prod.mk.injEq]
  refine ⟨by ring, trivial, by ring⟩

/-- C4 (amended): for every t and every nonnegative obliquity o,
`get_sun_declination o t = asin(cos t * sin o)` and the result lies in
[−o, o].  (For o < 0 the interval [−o, o] is empty, so the claim's "for
all real o" fails.) -/
theorem get_sun_declination_range (o t : ℝ) (ho : 0 ≤ o) :
    get_sun_declination o t = Real.arcsin (Real.cos t * Real.sin o) ∧
    get_sun_declination o t ∈ Set.Icc (-o) o := by
  refine ⟨rfl, ?_⟩
  unfold get_sun_declination
  rw [Set.mem_Icc]
  rcases le_or_lt o (π / 2) with hle | hlt
  · have hπ := Real.pi_pos
    have hs : 0 ≤ Real.sin o := Real.sin_nonneg_of_nonneg_of_le_pi ho (by linarith)
    have hub : Real.cos t * Real.sin o ≤ Real.sin o := by
      nlinarith [Real.cos_le_one t]
    have hlb : -Real.sin o ≤ Real.cos t * Real.sin o := by
      nlinarith [Real.neg_one_le_cos t]
    constructor
    · have h2 : Real.arcsin (-Real.sin o) ≤ Real.arcsin (Real.cos t * Real.sin o) :=
        Real.monotone_arcsin hlb
      rwa [Real.arcsin_neg, Real.arcsin_sin (by linarith) hle] at h2
    · have h2 : Real.arcsin (Real.cos t * Real.sin o) ≤ Real.arcsin (Real.sin o) :=
        Real.monotone_arcsin hub
      rwa [Real.arcsin_sin (by linarith) hle] at h2
  · constructor
    · have := Real.neg_pi_div_two_le_arcsin (Real.cos t * Real.sin o)
      linarith
    · have := Real.arcsin_le_pi_div_two (Real.cos t * Real.sin o)
      linarith

/-- C4 witness: the amended theorem applied at o = 0, t = 0. -/
theorem get_sun_declination_range_witness :
    (0 : ℝ) ≤ 0 ∧ (get_sun_declination 0 0 = Real.arcsin (Real.cos 0 * Real.sin 0) ∧
      get_sun_declination 0 0 ∈ Set.Icc (-(0 : ℝ)) 0) :=
  ⟨le_refl 0, get_sun_declination_range 0 0 (le_refl 0)⟩

/-- C4 counterexample: at o = −π/2, t = 0 the result does not lie in the
claimed range [−o, o] = [π/2, −π/2], which contains no real number at all. -/
theorem get_sun_declination_range_cex :
    get_sun_declination (-(π / 2)) 0 ∉ Set.Icc (-(-(π / 2))) (-(π / 2)) := by
  rw [Set.mem_Icc]
  intro h
  have h3 := h.1.trans h.2
  nlinarith [Real.pi_pos]

/-- C9 (amended): for every obliquity o with |o| ≤ π/2,
`get_sun_declination o 0 = o` and `get_sun_declination o π = -o`, and for
every real o, `get_sun_declination o (π/2) = 0`.  (For o outside
[−π/2, π/2] the arcsine folds the value back, so the solstice identities
fail, e.g. at o = π.) -/
theorem get_sun_declination_extremes (o : ℝ) (h1 : -(π / 2) ≤ o) (h2 : o ≤ π / 2) :
    get_sun_declination o 0 = o ∧ get_sun_declination o π = -o ∧
    ∀ o' : ℝ, get_sun_declination o' (π / 2) = 0 := by
  refine ⟨?_, ?_, fun o' => ?_⟩
  · unfold get_sun_declination
    rw [Real.cos_zero, one_mul, Real.arcsin_sin h1 h2]
  · unfold get_sun_declination
    rw [Real.cos_pi, neg_one_mul, Real.arcsin_neg, Real.arcsin_sin h1 h2]
  · unfold get_sun_declination
    rw [Real.cos_pi_div_two, zero_mul, Real.arcsin_zero]

/-- C9 witness: the amended theorem applied at o = 0. -/
theorem get_sun_declination_extremes_witness :
    (-(π / 2) ≤ (0 : ℝ) ∧ (0 : ℝ) ≤ π / 2) ∧
    (get_sun_declination 0 0 = 0 ∧ get_sun_declination 0 π = -0 ∧
      ∀ o' : ℝ, get_sun_declination o' (π / 2) = 0) :=
  ⟨⟨by linarith [Real.pi_pos], by linarith [Real.pi_pos]⟩,
    get_sun_declination_extremes 0 (by linarith [Real.pi_pos]) (by linarith [Real.pi_pos])⟩

/-- C9 counterexample: at obliquity o = π the solstice identity fails:
`get_sun_declination π 0 = asin(sin π) = 0 ≠ π`. -/
theorem get_sun_declination_extremes_cex : get_sun_declination π 0 ≠ π := by
  unfold get_sun_declination
  rw [Real.cos_zero, one_mul, Real.sin_pi, Real.arcsin_zero]
  exact Ne.symm Real.pi_ne_zero

lemma arctan2_mem_Icc (y x : ℝ) (hy : 0 ≤ y) : arctan2 y x ∈ Set.Icc 0 π := by
  rw [Set.mem_Icc]
  unfold arctan2
  split_ifs with h1 h2 h3 h4
  · constructor
    · have h := Real.arctan_strictMono.monotone (div_nonneg hy h1.le)
      rwa [Real.arctan_zero] at h
    · linarith [Real.arctan_lt_pi_div_two (y / x), Real.pi_pos]
  · constructor
    · linarith [Real.neg_pi_div_two_lt_arctan (y / x), Real.pi_pos]
    · have hyx : y / x ≤ 0 := div_nonpos_iff.mpr (Or.inl ⟨hy, h2.le⟩)
      have h := Real.arctan_strictMono.monotone hyx
      rw [Real.arctan_zero] at h
      linarith
  · constructor <;> linarith [Real.pi_pos]
  · exact absurd hy (not_le.mpr h4)
  · exact ⟨le_refl 0, Real.pi_pos.le⟩

/-- C6: for latitudes and declinations with defined tangents, the sunlit
fraction is `1 - acos(clip(tan l * tan d, -1, 1)) / π`; it is exactly 1 in
polar day (same signs, |tan l * tan d| ≥ 1) and exactly 0 in polar night
(opposite signs, |tan l * tan d| ≥ 1). -/
theorem sunlit_fraction_spec (l d : ℝ) (hl : |l| < π / 2) (hd : |d| < π / 2) :
    sunlit_fraction l d = 1 - Real.arccos (clip1 (Real.tan l * Real.tan d)) / π ∧
    (((0 < l ∧ 0 < d) ∨ (l < 0 ∧ d < 0)) → 1 ≤ |Real.tan l * Real.tan d| →
      sunlit_fraction l d = 1) ∧
    (((0 < l ∧ d < 0) ∨ (l < 0 ∧ 0 < d)) → 1 ≤ |Real.tan l * Real.tan d| →
      sunlit_fraction l d = 0) := by
  obtain ⟨hl1, hl2⟩ := abs_lt.mp hl
  obtain ⟨hd1, hd2⟩ := abs_lt.mp hd
  refine ⟨rfl, ?_, ?_⟩
  · rintro (⟨hs1, hs2⟩ | ⟨hs1, hs2⟩) habs
    · have htl : 0 < Real.tan l := Real.tan_pos_of_pos_of_lt_pi_div_two hs1 hl2
      have htd : 0 < Real.tan d := Real.tan_pos_of_pos_of_lt_pi_div_two hs2 hd2
      have hprod : 0 < Real.tan l * Real.tan d := mul_pos htl htd
      have hone : 1 ≤ Real.tan l * Real.tan d := by rwa [abs_of_pos hprod] at habs
      unfold sunlit_fraction clip1
      rw [max_eq_left (by linarith), min_eq_right hone, Real.arccos_one, zero_div, sub_zero]
    · have htl : Real.tan l < 0 := Real.tan_neg_of_neg_of_pi_div_two_lt hs1 hl1
      have htd : Real.tan d < 0 := Real.tan_neg_of_neg_of_pi_div_two_lt hs2 hd1
      have hprod : 0 < Real.tan l * Real.tan d := mul_pos_of_neg_of_neg htl htd
      have hone : 1 ≤ Real.tan l * Real.tan d := by rwa [abs_of_pos hprod] at habs
      unfold sunlit_fraction clip1
      rw [max_eq_left (by linarith), min_eq_right hone, Real.arccos_one, zero_div, sub_zero]
  · rintro (⟨hs1, hs2⟩ | ⟨hs1, hs2⟩) habs
    · have htl : 0 < Real.tan l := Real.tan_pos_of_pos_of_lt_pi_div_two hs1 hl2
      have htd : Real.tan d < 0 := Real.tan_neg_of_neg_of_pi_div_two_lt hs2 hd1
      have hprod : Real.tan l * Real.tan d < 0 := mul_neg_of_pos_of_neg htl htd
      have hone : Real.tan l * Real.tan d ≤ -1 := by
        rw [abs_of_neg hprod] at habs; linarith
      unfold sunlit_fraction clip1
      rw [max_eq_right hone, min_eq_left (by norm_num : (-1 : ℝ) ≤ 1),
        Real.arccos_neg_one, div_self Real.pi_ne_zero, sub_self]
    · have htl : Real.tan l < 0 := Real.tan_neg_of_neg_of_pi_div_two_lt hs1 hl1
      have htd : 0 < Real.tan d := Real.tan_pos_of_pos_of_lt_pi_div_two hs2 hd2
      have hprod : Real.tan l * Real.tan d < 0 := mul_neg_of_neg_of_pos htl htd
      have hone : Real.tan l * Real.tan d ≤ -1 := by
        rw [abs_of_neg hprod] at habs; linarith
      unfold sunlit_fraction clip1
      rw [max_eq_right hone, min_eq_left (by norm_num : (-1 : ℝ) ≤ 1),
        Real.arccos_neg_one, div_self Real.pi_ne_zero, sub_self]

/-- C6 witness: the theorem applied at l = 1, d = 1 (where |1| < π/2). -/
theorem sunlit_fraction_spec_witness :
    |(1 : ℝ)| < π / 2 ∧
    (sunlit_fraction 1 1 = 1 - Real.arccos (clip1 (Real.tan 1 * Real.tan 1)) / π ∧
      (((0 < (1 : ℝ) ∧ 0 < (1 : ℝ)) ∨ ((1 : ℝ) < 0 ∧ (1 : ℝ) < 0)) →
        1 ≤ |Real.tan 1 * Real.tan 1| → sunlit_fraction 1 1 = 1) ∧
      (((0 < (1 : ℝ) ∧ (1 : ℝ) < 0) ∨ ((1 : ℝ) < 0 ∧ 0 < (1 : ℝ))) →
        1 ≤ |Real.tan 1 * Real.tan 1| → sunlit_fraction 1 1 = 0)) := by
  have h : |(1 : ℝ)| < π / 2 := by
    rw [abs_one]; linarith [Real.pi_gt_three]
  exact ⟨h, sunlit_fraction_spec 1 1 h h⟩

/-- C7: for latitudes and declinations with defined tangents, the sunrise
azimuth is `atan2(sqrt(1 - f²), sin l * f + cos l * tan d)` with
`f = clip(tan l * tan d, -1, 1)`, and the result lies in [0, π]. -/
theorem sunrise_azimuth_range (l d : ℝ) (hl : |l| < π / 2) (hd : |d| < π / 2) :
    sunrise_azimuth l d
      = arctan2 (Real.sqrt (1 - clip1 (Real.tan l * Real.tan d) ^ 2))
          (Real.sin l * clip1 (Real.tan l * Real.tan d) + Real.cos l * Real.tan d) ∧
    sunrise_azimuth l d ∈ Set.Icc 0 π := by
  refine ⟨rfl, ?_⟩
  unfold sunrise_azimuth
  exact arctan2_mem_Icc _ _ (Real.sqrt_nonneg _)

lemma make_parallel_length (q : ℝ) (n : ℕ) : (make_parallel q n).length = n + 1 := by
  simp [make_parallel, linspace]

lemma make_meridian_length (p : ℝ) (n : ℕ) : (make_meridian p n).length = n + 1 := by
  simp [make_meridian, linspace]

lemma map_range_drop_one {α : Type} (f : ℕ → α) (m : ℕ) :
    ((List.range (m + 1)).map f).drop 1 = (List.range m).map (fun k => f (k + 1)) := by
  rw [List.range_succ_eq_map]
  simp [List.map_map, Function.comp_def]

lemma map_range_dropLast {α : Type} (f : ℕ → α) (m : ℕ) :
    ((List.range (m + 1)).map f).dropLast = (List.range m).map f := by
  rw [List.range_succ, List.map_append]
  simp

lemma linspace_drop_dropLast (a b : ℝ) (m : ℕ) :
    ((linspace a b (m + 2)).drop 1).dropLast
      = (List.range m).map (fun k : ℕ => a + (b - a) * ((k : ℝ) + 1) / ((m + 1 : ℕ) : ℝ)) := by
  unfold linspace
  rw [show m + 2 = (m + 1) + 1 from rfl, map_range_drop_one, map_range_dropLast]
  congr 1
  funext k
  norm_num

lemma linspace_dropLast (a b : ℝ) (m : ℕ) :
    (linspace a b (m + 1)).dropLast
      = (List.range m).map (fun k : ℕ => a + (b - a) * (k : ℝ) / (m : ℝ)) := by
  unfold linspace
  rw [map_range_dropLast]
  norm_num

/-- C7 witness: the theorem applied at l = 0, d = 0. -/
theorem sunrise_azimuth_range_witness :
    |(0 : ℝ)| < π / 2 ∧
    (sunrise_azimuth 0 0
        = arctan2 (Real.sqrt (1 - clip1 (Real.tan 0 * Real.tan 0) ^ 2))
            (Real.sin 0 * clip1 (Real.tan 0 * Real.tan 0) + Real.cos 0 * Real.tan 0) ∧
      sunrise_azimuth 0 0 ∈ Set.Icc 0 π) := by
  have h : |(0 : ℝ)| < π / 2 := by
    rw [abs_zero]; linarith [Real.pi_pos]
  exact ⟨h, sunrise_azimuth_range 0 0 h h⟩

/-- C5 (amended): for every i ≥ 1 and every j, `make_globe i j n` is exactly
the list of the 2·i − 1 parallels at the evenly spaced colatitudes
π·(k+1)/(2·i) — all strictly inside (0, π) — followed by the 2·j meridians at
the evenly spaced, pairwise distinct longitudes π·k/(2·j) in [0, π); and
negative subdivision counts are a precondition failure (the assert fails,
modelled as `none`).  In particular `make_globe 3 3` has 5 parallels plus
6 meridians, 11 curves.  (At i = 0 the globe has 0 parallels, not 2·0 − 1;
see the counterexample.) -/
theorem make_globe_spec (i j n : ℕ) (hi : 1 ≤ i) :
    make_globe (i : ℤ) (j : ℤ) n = some
      ((List.range (2 * i - 1)).map
          (fun k : ℕ => make_parallel (π * ((k : ℝ) + 1) / (2 * (i : ℝ))) 100)
        ++ (List.range (2 * j)).map
          (fun k : ℕ => make_meridian (π * (k : ℝ) / (2 * (j : ℝ))) 100)) ∧
    (∀ k : ℕ, k < 2 * i - 1 →
      0 < π * ((k : ℝ) + 1) / (2 * (i : ℝ)) ∧ π * ((k : ℝ) + 1) / (2 * (i : ℝ)) < π) ∧
    (∀ k : ℕ, k < 2 * j →
      0 ≤ π * (k : ℝ) / (2 * (j : ℝ)) ∧ π * (k : ℝ) / (2 * (j : ℝ)) < π) ∧
    (∀ k k' : ℕ, k < 2 * j → k' < 2 * j → k ≠ k' →
      π * (k : ℝ) / (2 * (j : ℝ)) ≠ π * (k' : ℝ) / (2 * (j : ℝ))) ∧
    ∀ (i' j' : ℤ) (n' : ℕ), i' < 0 ∨ j' < 0 → make_globe i' j' n' = none := by
  refine ⟨?_, ?_, ?_, ?_, ?_⟩
  · unfold make_globe
    rw [if_pos ⟨by omega, by omega⟩,
      show ((i : ℤ) * 2 + 1).toNat = 2 * i - 1 + 2 from by omega,
      show ((j : ℤ) * 2 + 1).toNat = 2 * j + 1 from by omega,
      linspace_drop_dropLast, linspace_dropLast, List.map_map, List.map_map]
    congr 1
    congr 1
    · congr 1
      funext k
      rw [Function.comp_apply]
      congr 1
      rw [show 2 * i - 1 + 1 = 2 * i from by omega]
      push_cast
      ring
    · congr 1
      funext k
      rw [Function.comp_apply]
      congr 1
      push_cast
      ring
  · intro k hk
    have hi' : (1 : ℝ) ≤ (i : ℝ) := by exact_mod_cast hi
    have h2i : (0 : ℝ) < 2 * (i : ℝ) := by linarith
    constructor
    · exact div_pos (by positivity) h2i
    · rw [div_lt_iff h2i]
      have hk' : (k : ℝ) + 1 < 2 * (i : ℝ) := by
        have h : k + 1 < 2 * i := by omega
        exact_mod_cast h
      nlinarith [Real.pi_pos]
  · intro k hk
    have h2j : (0 : ℝ) < 2 * (j : ℝ) := by
      have h : 0 < 2 * j := by omega
      exact_mod_cast h
    constructor
    · exact div_nonneg (by positivity) h2j.le
    · rw [div_lt_iff h2j]
      have hk' : (k : ℝ) < 2 * (j : ℝ) := by exact_mod_cast hk
      nlinarith [Real.pi_pos]
  · intro k k' hk hk' hne heq
    have h2j : (0 : ℝ) < 2 * (j : ℝ) := by
      have h : 0 < 2 * j := by omega
      exact_mod_cast h
    rw [div_eq_div_iff h2j.ne' h2j.ne'] at heq
    have h1 : (k : ℝ) = k' :=
      mul_left_cancel₀ Real.pi_ne_zero (mul_right_cancel₀ h2j.ne' heq)
    exact hne (by exact_mod_cast h1)
  · intro i' j' n' h
    unfold make_globe
    rw [if_neg (by omega : ¬((0 : ℤ) ≤ i' ∧ 0 ≤ j'))]

/-- C5 witness: the amended theorem applied at i = j = 3 with the default
resolution; the globe is the 5 parallels followed by the 6 meridians,
11 curves in total. -/
theorem make_globe_spec_witness :
    1 ≤ 3 ∧
    make_globe ((3 : ℕ) : ℤ) ((3 : ℕ) : ℤ) 100 = some
      ((List.range (2 * 3 - 1)).map
          (fun k : ℕ => make_parallel (π * ((k : ℝ) + 1) / (2 * ((3 : ℕ) : ℝ))) 100)
        ++ (List.range (2 * 3)).map
          (fun k : ℕ => make_meridian (π * (k : ℝ) / (2 * ((3 : ℕ) : ℝ))) 100)) ∧
    ((List.range (2 * 3 - 1)).map
        (fun k : ℕ => make_parallel (π * ((k : ℝ) + 1) / (2 * ((3 : ℕ) : ℝ))) 100)
      ++ (List.range (2 * 3)).map
        (fun k : ℕ => make_meridian (π * (k : ℝ) / (2 * ((3 : ℕ) : ℝ))) 100)).length = 11 := by
  refine ⟨by norm_num, (make_globe_spec 3 3 100 (by norm_num)).1, ?_⟩
  simp

/-- C5 counterexample: at i = 0, j = 1 the globe holds 2 curves (no parallels
and two meridians), yet the claim's count 2·i − 1 parallels plus 2·j meridians
would demand 2·0 − 1 + 2·1 = 1 curve. -/
theorem make_globe_spec_cex :
    ((make_globe 0 1 100).getD []).length = 2 ∧ ¬((2 : ℤ) = 2 * 0 - 1 + 2 * 1) := by
  constructor
  · unfold make_globe
    rw [if_pos ⟨le_refl 0, by norm_num⟩,
      show ((0 : ℤ) * 2 + 1).toNat = 1 from by decide,
      show ((1 : ℤ) * 2 + 1).toNat = 3 from by decide]
    simp [linspace]
  · decide

/-- C10: the resolution argument n of `make_globe` is never forwarded to the
curve generators, so the result does not depend on n and every curve in the
globe has exactly 100 + 1 = 101 sample points. -/
theorem make_globe_ignores_resolution (i j : ℤ) (n : ℕ) :
    make_globe i j n = make_globe i j 100 ∧
    ((make_globe i j n).getD []).all (fun c => c.length == 101) = true := by
  refine ⟨rfl, ?_⟩
  unfold make_globe
  split_ifs with h
  · rw [Option.getD_some, List.all_eq_true]
    intro c hc
    rw [List.mem_append] at hc
    rcases hc with hc | hc <;> rw [List.mem_map] at hc <;> obtain ⟨q, hq, rfl⟩ := hc
    · simp [make_parallel_length]
    · simp [make_meridian_length]
  · simp

end
